import Mathlib

/-!
Verification of the payout pipeline of goat-systems/payman (tzpay): the
reward calculator, payout assembler, operation forger, curve dispatch,
RPC input validation and the payout scheduler. Pure functions of the Go
source are embedded as Lean functions; the repository ships only the
baker package's tests, so the baker functions themselves are modelled
from the design spec and checked against the golden values those tests
pin down. Machine integers on the money path are Go big.Int values,
always non-negative here, embedded as Nat with truncating division.
-/

namespace Payman

/-- One delegator's result for one cycle, mirroring the Go struct
`DelegationEarning` (fields Delegation, Fee, GrossRewards, NetRewards, Share).
Amounts are big.Int (non-negative) embedded as Nat; Share is the audit-only
rational. -/
structure DelegationEarning where
  delegation : String
  fee : Nat
  grossRewards : Nat
  netRewards : Nat
  share : ℚ

/-- Gross reward of one delegator: `delegate_frozen_rewards * delegator_stake /
delegate_staking_balance` with truncating integer division (Nat division, all
quantities non-negative). -/
def grossReward (rewards stake stakingBalance : Nat) : Nat :=
  rewards * stake / stakingBalance

/-- Modelled from the spec: the Reward Calculator `Baker.processDelegation`,
whose implementation is not among the repository's files (only its tests are).
Inputs: the delegator's balance at the snapshot block, the delegate's staking
balance and frozen rewards for the cycle, and the baker's fee rate as an exact
rational `feeNum / feeDen` (the spec requires `fee_rate ∈ [0,1]`, arbitrary
precision integers and floor rounding on the money path). A zero staking
balance (or a malformed fee rate) is the spec's DivisionByZero condition. -/
def processDelegation (delegation : String)
    (balance stakingBalance rewards feeNum feeDen : Nat) :
    Option DelegationEarning :=
  if stakingBalance = 0 ∨ feeDen = 0 then none
  else
    let gross := grossReward rewards balance stakingBalance
    let fee := gross * feeNum / feeDen
    some { delegation := delegation, fee := fee, grossRewards := gross,
           netRewards := gross - fee,
           share := (balance : ℚ) / (stakingBalance : ℚ) }

/-- Modelled from the spec: `Baker.proccessDelegations` (sic, the Go source's
spelling), whose implementation is not among the repository's files. Each
delegator's balance is fetched independently and a failure is recorded in that
delegator's own entry; the other entries are unaffected. -/
def proccessDelegations (balanceOf : String → Except String Nat)
    (stakingBalance rewards feeNum feeDen : Nat) (delegations : List String) :
    List (Except String DelegationEarning) :=
  delegations.map (fun d =>
    match balanceOf d with
    | .error e => .error ("failed to get balance: " ++ e)
    | .ok bal =>
      match processDelegation d bal stakingBalance rewards feeNum feeDen with
      | some earning => .ok earning
      | none => .error "invariant violation: zero staking balance")

/-- The test double `gotezosMock` of the baker package's tests: each RPC
lookup either fails with a fixed message or returns the fixed golden value. -/
structure GotezosMock where
  balanceErr : Bool
  frozenBalanceErr : Bool
  delegatedContractsErr : Bool
  cycleErr : Bool
  stakingBalanceErr : Bool

/-- Mock `Balance` lookup: 10,000,000,000 on success. -/
def GotezosMock.Balance (g : GotezosMock) : Except String Nat :=
  if g.balanceErr then .error "failed to get balance" else .ok 10000000000

/-- Mock `FrozenBalance` lookup, rewards component: 70,000,000 on success. -/
def GotezosMock.FrozenBalanceRewards (g : GotezosMock) : Except String Nat :=
  if g.frozenBalanceErr then .error "failed to get frozen balance" else .ok 70000000

/-- Mock `DelegatedContractsAtCycle` lookup. -/
def GotezosMock.DelegatedContractsAtCycle (g : GotezosMock) :
    Except String (List String) :=
  if g.delegatedContractsErr then .error "failed to get delegated contracts at cycle"
  else .ok ["tz1a", "tz1b", "tz1c"]

/-- Mock `Cycle` lookup: the cycle's snapshot block hash on success. -/
def GotezosMock.CycleBlockHash (g : GotezosMock) : Except String String :=
  if g.cycleErr then .error "failed to get cycle" else .ok "some_hash"

/-- Mock `StakingBalance` lookup: 10,000,000,000 on success. -/
def GotezosMock.StakingBalance (g : GotezosMock) : Except String Nat :=
  if g.stakingBalanceErr then .error "failed to get staking balance" else .ok 10000000000

/-- Aggregate payout for one delegate and one cycle (Go struct `Payout`).
Per-delegator failures stay recorded in their own entries. -/
structure Payout where
  delegationEarnings : List (Except String DelegationEarning)
  cycle : Nat
  frozenBalance : Nat
  stakingBalance : Nat
  delegate : String

/-- Modelled from the spec: the Payout Assembler `Baker.Payouts`, whose
implementation is not among the repository's files. It performs the four
cycle-level lookups (frozen rewards, delegator list, cycle metadata, staking
balance); a failure of any one aborts the assembly with the wrapped message
the tests expect, and otherwise the per-delegator computations are fanned
out with each failure recorded against its own delegator. -/
def Payouts (g : GotezosMock) (cycle feeNum feeDen : Nat) (delegate : String) :
    Except String Payout :=
  match g.FrozenBalanceRewards with
  | .error e => .error ("failed to get delegation earnings for cycle " ++ toString cycle ++ ": " ++ e)
  | .ok rewards =>
  match g.DelegatedContractsAtCycle with
  | .error e => .error ("failed to get delegation earnings for cycle " ++ toString cycle ++ ": " ++ e)
  | .ok delegations =>
  match g.CycleBlockHash with
  | .error e => .error ("failed to get delegation earnings for cycle " ++ toString cycle ++ ": " ++ e)
  | .ok _ =>
  match g.StakingBalance with
  | .error e => .error ("failed to get delegation earnings for cycle " ++ toString cycle ++ ": " ++ e)
  | .ok stakingBalance =>
    .ok { delegationEarnings :=
            proccessDelegations (fun _ => g.Balance) stakingBalance rewards feeNum feeDen delegations,
          cycle := cycle, frozenBalance := rewards,
          stakingBalance := stakingBalance, delegate := delegate }

/-- One transfer instruction handed to the forger (Go struct
`gotezos.ForgeTransactionOperationInput`). -/
structure ForgeTransactionOperationInput where
  source : String
  fee : Nat
  counter : Nat
  gasLimit : Nat
  storageLimit : Nat
  amount : Nat
  destination : String

/-- Modelled from the spec: `Baker.constructPayoutContents`, whose
implementation is not among the repository's files. For each earning in
payout order one transfer instruction is built with the configured network
fee and gas limit, storage limit 0, amount the net reward, and counter
`base + 1, base + 2, …` (the trailing counter threads through the loop). -/
def constructPayoutContents (source : String) (networkFee gasLimit : Nat) :
    Nat → List DelegationEarning → List ForgeTransactionOperationInput
  | _, [] => []
  | counter, e :: rest =>
    { source := source, fee := networkFee, counter := counter + 1,
      gasLimit := gasLimit, storageLimit := 0, amount := e.netRewards,
      destination := e.delegation }
      :: constructPayoutContents source networkFee gasLimit (counter + 1) rest

/-- The base58 alphabet used by Tezos (bitcoin alphabet). -/
def base58Alphabet : String :=
  "123456789ABCDEFGHJKLMNPQRSTUVWXYZabcdefghijkmnopqrstuvwxyz"

/-- Value of one base58 digit. -/
def base58DigitVal (c : Char) : Nat :=
  base58Alphabet.toList.indexOf c

/-- A base58 string read as a big-endian number. -/
def base58ToNat (s : String) : Nat :=
  s.toList.foldl (fun acc c => acc * 58 + base58DigitVal c) 0

/-- The `len` big-endian bytes of `n`. -/
def bytesBE (len n : Nat) : List Nat :=
  (List.range len).map (fun i => n / 256 ^ (len - 1 - i) % 256)

/-- Base58check decoding: strip the leading type tag of `tagLen` bytes and the
trailing 4 checksum bytes, keeping the `payloadLen`-byte payload. -/
def decodeBase58Check (tagLen payloadLen : Nat) (s : String) : List Nat :=
  ((bytesBE (tagLen + payloadLen + 4) (base58ToNat s)).drop tagLen).take payloadLen

/-- A block hash (tag "B", 2 tag bytes) decoded to its 32 payload bytes. -/
def forgeBranch (branch : String) : List Nat := decodeBase58Check 2 32 branch

/-- A tz1 address (3 tag bytes) decoded to its 20-byte public key hash. -/
def forgeAddressTz1 (addr : String) : List Nat := decodeBase58Check 3 20 addr

/-- Zarith unsigned encoding, little-endian base 128 with continuation bits;
`fuel` bounds the recursion and `n` itself is always enough fuel. -/
def forgeNatAux : Nat → Nat → List Nat
  | 0, n => [n % 128]
  | fuel + 1, n => if n < 128 then [n] else (128 + n % 128) :: forgeNatAux fuel (n / 128)

/-- Zarith unsigned encoding of `n`. -/
def forgeNat (n : Nat) : List Nat := forgeNatAux n n

/-- One forged transfer: kind tag 0x6c, implicit tz1 source, zarith
fee/counter/gas/storage/amount, implicit tz1 destination, no parameters. -/
def forgeTransaction (source : String) (fee counter gasLimit storageLimit amount : Nat)
    (destination : String) : List Nat :=
  [108] ++ (0 :: forgeAddressTz1 source) ++ forgeNat fee ++ forgeNat counter ++
    forgeNat gasLimit ++ forgeNat storageLimit ++ forgeNat amount ++
    (0 :: 0 :: forgeAddressTz1 destination) ++ [0]

/-- Lower-case hex digit. -/
def hexDigit (n : Nat) : Char :=
  if n < 10 then Char.ofNat (48 + n) else Char.ofNat (87 + n)

/-- Bytes rendered as a lower-case hex string. -/
def hexOfBytes (bs : List Nat) : String :=
  ((bs.map (fun b => [hexDigit (b / 16), hexDigit (b % 16)])).flatten).asString

/-- Modelled from the spec: `Baker.ForgePayout`, whose implementation is not
among the repository's files. The branch hash (from the head lookup) is
decoded and prefixed to the concatenation of one forged transfer per payout
entry, counters assigned by `constructPayoutContents` from the fresh account
counter; the result is the forged operation as a hex string. -/
def ForgePayout (branch source : String) (networkFee gasLimit counter : Nat)
    (earnings : List DelegationEarning) : String :=
  hexOfBytes (forgeBranch branch ++
    ((constructPayoutContents source networkFee gasLimit counter earnings).map
      (fun c => forgeTransaction c.source c.fee c.counter c.gasLimit
        c.storageLimit c.amount c.destination)).flatten)

/-- Configuration read by the payout server (src/cli/internal/cmd:
`server.start`): the wait-for-unfreeze flag and the network's preserved
cycles constant. -/
structure ServerConfig where
  payoutWhenRewardsUnfrozen : Bool
  preservedCycles : Int

/-- The cycle a newly detected head triggers a payout for, from
`server.start`: the previously seen cycle, or `new cycle − preserved cycles`
when the wait-for-unfreeze flag is set. -/
def cycleToPayoutFor (cfg : ServerConfig) (currentCycle newCycle : Int) : Int :=
  if cfg.payoutWhenRewardsUnfrozen then newCycle - cfg.preservedCycles
  else currentCycle

/-- The polling loop of `server.start` (src/cli/internal/cmd), run over a
finite list of head polls: starting from the initially observed cycle, a poll
whose cycle is strictly greater than the tracked cycle enqueues one payout
for `cycleToPayoutFor` and advances the tracked cycle; every other poll does
nothing. Returns the enqueued payout cycles in order. -/
def serverStart (cfg : ServerConfig) : Int → List Int → List Int
  | _, [] => []
  | currentCycle, poll :: polls =>
    if currentCycle < poll then
      cycleToPayoutFor cfg currentCycle poll :: serverStart cfg poll polls
    else
      serverStart cfg currentCycle polls

/-- The three curve families of `keys/curve.go` (`ECKind` values name them;
the Go `ECKind` itself is a string type). -/
inductive ECurve
  | ed25519
  | secp256k1
  | nistP256
deriving DecidableEq

/-- Curve selection by kind, from `getCurve` in `keys/curve.go`: Secp256k1 and
NistP256 are matched by name and every other kind string falls through to the
Ed25519 curve; the function is total and never reports an error. -/
def getCurve (kind : String) : ECurve :=
  if kind = "Secp256k1" then .secp256k1
  else if kind = "NistP256" then .nistP256
  else .ed25519

/-- Curve selection by base58 text tag, from `getCurveByPrefix` in
`keys/curve.go`: three five-member recognition lists, else the UnknownCurve
error. -/
def getCurveByPrefix (p : String) : Except String ECurve :=
  if p = "edpk" ∨ p = "edsk" ∨ p = "tz1" ∨ p = "edesk" ∨ p = "edsig" then
    .ok .ed25519
  else if p = "sppk" ∨ p = "spsk" ∨ p = "tz2" ∨ p = "spesk" ∨ p = "spsig" then
    .ok .secp256k1
  else if p = "p2pk" ∨ p = "p2sk" ∨ p = "tz3" ∨ p = "p2esk" ∨ p = "p2sig" then
    .ok .nistP256
  else
    .error ("failed to find curve with prefix " ++ p)

/-- The text tags `getCurveByPrefix` recognizes, in source order. -/
def recognizedPrefixes : List String :=
  ["edpk", "edsk", "tz1", "edesk", "edsig",
   "sppk", "spsk", "tz2", "spesk", "spsig",
   "p2pk", "p2sk", "tz3", "p2esk", "p2sig"]

/-- Input of the `StakingBalance` RPC (`rpc/delegate.go`): a block hash or a
cycle, and the delegate. Go's `Cycle int` is embedded as Int. -/
structure StakingBalanceInput where
  blockhash : String
  delegate : String
  cycle : Int

/-- Validation of `StakingBalanceInput` from `rpc/delegate.go`: exactly one of
block hash and (nonzero) cycle must be supplied, and the delegate is required
by the struct validator. -/
def StakingBalanceInput.validate (s : StakingBalanceInput) : Except String Unit :=
  if s.blockhash = "" ∧ s.cycle = 0 then
    .error "invalid input: missing key cycle or blockhash"
  else if s.blockhash ≠ "" ∧ s.cycle ≠ 0 then
    .error "invalid input: cannot have both cycle and blockhash"
  else if s.delegate = "" then
    .error "invalid input"
  else
    .ok ()

/-- Input of the `DelegatedContracts` RPC (`rpc/delegate.go`). -/
structure DelegatedContractsInput where
  blockhash : String
  delegate : String
  cycle : Int

/-- Validation of `DelegatedContractsInput` from `rpc/delegate.go`, the same
exactly-one-of rule as `StakingBalanceInput.validate`. -/
def DelegatedContractsInput.validate (s : DelegatedContractsInput) : Except String Unit :=
  if s.blockhash = "" ∧ s.cycle = 0 then
    .error "invalid input: missing key cycle or blockhash"
  else if s.blockhash ≠ "" ∧ s.cycle ≠ 0 then
    .error "invalid input: cannot have both cycle and blockhash"
  else if s.delegate = "" then
    .error "invalid input"
  else
    .ok ()

lemma floor_mul_ratio (g p q : Nat) (hq : 0 < q) :
    Int.floor ((g : ℚ) * ((p : ℚ) / (q : ℚ))) = ((g * p / q : Nat) : Int) := by
  have h1 : (g : ℚ) * ((p : ℚ) / (q : ℚ)) = ((g * p : Nat) : ℚ) / ((q : Nat) : ℚ) := by
    push_cast
    ring
  have h2 : (0 : ℚ) ≤ ((g * p : Nat) : ℚ) / ((q : Nat) : ℚ) := by positivity
  rw [h1, ← Int.natCast_floor_eq_floor h2, Nat.floor_div_nat, Nat.floor_natCast]

lemma div_le_of_num_le (a b c : Nat) (hc : 0 < c) (h : b ≤ c) : a * b / c ≤ a := by
  calc a * b / c ≤ a * c / c := Nat.div_le_div_right (Nat.mul_le_mul_left a h)
    _ = a := Nat.mul_div_left a hc

/-- C1: for every non-negative rewards, stake and total stake with
`0 < total_stake` and `stake ≤ total_stake`, and a fee rate `feeNum/feeDen`
in `[0,1]`, the Reward Calculator succeeds; its gross reward is
`rewards*stake/total_stake` under truncating division, its net reward is
gross minus `⌊gross * fee_rate⌋`, and `net ≤ gross ≤ rewards`. -/
theorem C1_reward_calculator (delegation : String)
    (rewards stake totalStake feeNum feeDen : Nat)
    (hT : 0 < totalStake) (hs : stake ≤ totalStake)
    (hq : 0 < feeDen) (hf : feeNum ≤ feeDen) :
    ∃ e : DelegationEarning,
      processDelegation delegation stake totalStake rewards feeNum feeDen = some e
      ∧ e.grossRewards = rewards * stake / totalStake
      ∧ (e.netRewards : Int) = (e.grossRewards : Int)
          - Int.floor ((e.grossRewards : ℚ) * ((feeNum : ℚ) / (feeDen : ℚ)))
      ∧ e.netRewards ≤ e.grossRewards
      ∧ e.grossRewards ≤ rewards := by
  have hcond : ¬ (totalStake = 0 ∨ feeDen = 0) := by omega
  rw [processDelegation, if_neg hcond]
  have hfee : grossReward rewards stake totalStake * feeNum / feeDen
      ≤ grossReward rewards stake totalStake :=
    div_le_of_num_le _ _ _ hq hf
  refine ⟨_, rfl, rfl, ?_, ?_, ?_⟩
  · show ((grossReward rewards stake totalStake
        - grossReward rewards stake totalStake * feeNum / feeDen : Nat) : Int)
      = ((grossReward rewards stake totalStake : Nat) : Int)
        - Int.floor (((grossReward rewards stake totalStake : Nat) : ℚ)
            * ((feeNum : ℚ) / (feeDen : ℚ)))
    rw [floor_mul_ratio _ _ _ hq]
    omega
  · show grossReward rewards stake totalStake
        - grossReward rewards stake totalStake * feeNum / feeDen
      ≤ grossReward rewards stake totalStake
    exact Nat.sub_le _ _
  · show grossReward rewards stake totalStake ≤ rewards
    exact div_le_of_num_le _ _ _ hT hs

/-- Witness for C1 at the golden inputs of the baker test: rewards
800,000,000, stake 10,000,000,000, staking balance 100,000,000,000 and fee
rate 1/20. -/
theorem C1_reward_calculator_witness :
    (0 < (100000000000 : Nat)) ∧ ((10000000000 : Nat) ≤ 100000000000)
    ∧ (0 < (20 : Nat)) ∧ ((1 : Nat) ≤ 20)
    ∧ ∃ e : DelegationEarning,
        processDelegation "tz1b" 10000000000 100000000000 800000000 1 20 = some e
        ∧ e.grossRewards = 800000000 * 10000000000 / 100000000000
        ∧ (e.netRewards : Int) = (e.grossRewards : Int)
            - Int.floor ((e.grossRewards : ℚ) * (((1 : Nat) : ℚ) / ((20 : Nat) : ℚ)))
        ∧ e.netRewards ≤ e.grossRewards
        ∧ e.grossRewards ≤ 800000000 :=
  ⟨by decide, by decide, by decide, by decide,
   C1_reward_calculator "tz1b" 800000000 10000000000 100000000000 1 20
     (by decide) (by decide) (by decide) (by decide)⟩

lemma grossReward_sum_identity (rewards totalStake : Nat) :
    ∀ stakes : List Nat,
      totalStake * (stakes.map (fun s => grossReward rewards s totalStake)).sum
          + (stakes.map (fun s => rewards * s % totalStake)).sum
        = rewards * stakes.sum
  | [] => by simp
  | s :: rest => by
    have h1 := Nat.div_add_mod (rewards * s) totalStake
    have ih := grossReward_sum_identity rewards totalStake rest
    simp only [List.map_cons, List.sum_cons, grossReward] at *
    rw [Nat.mul_add, Nat.mul_add]
    linarith

/-- C2: for a delegate whose delegators' stakes sum to exactly the total
staking balance, the per-delegator gross rewards sum to at most the frozen
rewards, and the truncation shortfall is at most delegator count minus one. -/
theorem C2_gross_sum_bound (rewards totalStake : Nat) (stakes : List Nat)
    (hT : 0 < totalStake) (hsum : stakes.sum = totalStake) :
    (stakes.map (fun s => grossReward rewards s totalStake)).sum ≤ rewards
    ∧ rewards - (stakes.map (fun s => grossReward rewards s totalStake)).sum
        ≤ stakes.length - 1 := by
  have key := grossReward_sum_identity rewards totalStake stakes
  rw [hsum] at key
  constructor
  · exact Nat.le_of_mul_le_mul_left
      (le_of_le_of_eq (Nat.le.intro key) (Nat.mul_comm rewards totalStake)) hT
  · have hne : stakes ≠ [] := by
      intro h
      rw [h] at hsum
      simp at hsum
      omega
    have hn1 : 1 ≤ stakes.length := List.length_pos.mpr hne
    have hRle : (stakes.map (fun s => rewards * s % totalStake)).sum
        ≤ stakes.length * (totalStake - 1) := by
      have hmem : ∀ x ∈ stakes.map (fun s => rewards * s % totalStake),
          x ≤ totalStake - 1 := by
        intro x hx
        simp only [List.mem_map] at hx
        obtain ⟨s, _, rfl⟩ := hx
        have := Nat.mod_lt (rewards * s) hT
        omega
      have h2 := List.sum_le_card_nsmul _ _ hmem
      simpa [smul_eq_mul, List.length_map, Nat.mul_comm] using h2
    have hlt : rewards
        < (stakes.map (fun s => grossReward rewards s totalStake)).sum
          + stakes.length := by
      by_contra hcon
      push_neg at hcon
      have key' : (totalStake : ℤ)
            * ((stakes.map (fun s => grossReward rewards s totalStake)).sum : ℤ)
            + ((stakes.map (fun s => rewards * s % totalStake)).sum : ℤ)
          = (rewards : ℤ) * totalStake := by exact_mod_cast key
      have hRle' : (((stakes.map (fun s => rewards * s % totalStake)).sum : ℤ))
          ≤ (stakes.length : ℤ) * ((totalStake : ℤ) - 1) := by
        have h3 : ((stakes.length * (totalStake - 1) : Nat) : ℤ)
            = (stakes.length : ℤ) * ((totalStake : ℤ) - 1) := by
          push_cast [Nat.cast_sub (by omega : 1 ≤ totalStake)]
          ring
        calc (((stakes.map (fun s => rewards * s % totalStake)).sum : ℤ))
            ≤ ((stakes.length * (totalStake - 1) : Nat) : ℤ) := by exact_mod_cast hRle
          _ = (stakes.length : ℤ) * ((totalStake : ℤ) - 1) := h3
      have hcon' : ((stakes.map (fun s => grossReward rewards s totalStake)).sum : ℤ)
          + (stakes.length : ℤ) ≤ (rewards : ℤ) := by exact_mod_cast hcon
      have hT' : (1 : ℤ) ≤ (totalStake : ℤ) := by exact_mod_cast hT
      have hn' : (1 : ℤ) ≤ (stakes.length : ℤ) := by exact_mod_cast hn1
      nlinarith [mul_le_mul_of_nonneg_right hcon'
        (by linarith : (0 : ℤ) ≤ (totalStake : ℤ))]
    omega

/-- Witness for C2 at a concrete delegate: rewards 7, three delegators with
stakes 3, 3 and 4 summing to the staking balance 10. -/
theorem C2_gross_sum_bound_witness :
    (0 < (10 : Nat)) ∧ (([3, 3, 4] : List Nat).sum = 10)
    ∧ (([3, 3, 4] : List Nat).map (fun s => grossReward 7 s 10)).sum ≤ 7
    ∧ 7 - (([3, 3, 4] : List Nat).map (fun s => grossReward 7 s 10)).sum
        ≤ ([3, 3, 4] : List Nat).length - 1 :=
  ⟨by decide, by decide,
   (C2_gross_sum_bound 7 10 [3, 3, 4] (by decide) (by decide)).1,
   (C2_gross_sum_bound 7 10 [3, 3, 4] (by decide) (by decide)).2⟩

/-- C3 counterexample: on the cited input the delegator's stake is NOT the
full staking balance. Feeding a stake truly equal to the staking balance
100,000,000,000 yields gross rewards 800,000,000 (not the claimed 80,000,000)
and share 1 (not the claimed 0.1), so the claim as stated is false. -/
theorem C3_full_stake_counterexample :
    (processDelegation "tz1b" 100000000000 100000000000 800000000 1 20).map
        DelegationEarning.grossRewards = some 800000000
    ∧ (processDelegation "tz1b" 100000000000 100000000000 800000000 1 20).map
        DelegationEarning.share = some 1
    ∧ ((800000000 : Nat) ≠ 80000000)
    ∧ ((1 : ℚ) ≠ 1 / 10) := by
  refine ⟨by decide, ?_, by decide, by norm_num⟩
  simp only [processDelegation, grossReward]
  norm_num

/-- C3 amended: with the delegator's stake being the mock balance
10,000,000,000 — one tenth of the staking balance 100,000,000,000, as the
baker test's mock supplies — frozen rewards 800,000,000 and fee rate 0.05,
the Reward Calculator returns Fee 4,000,000, GrossRewards 80,000,000,
NetRewards 76,000,000 and Share 0.1. -/
theorem C3_mock_delegation_earning :
    ∃ e : DelegationEarning,
      processDelegation "tz1b" 10000000000 100000000000 800000000 1 20 = some e
      ∧ e.fee = 4000000 ∧ e.grossRewards = 80000000
      ∧ e.netRewards = 76000000 ∧ e.share = 1 / 10 := by
  rw [processDelegation, if_neg (by norm_num)]
  refine ⟨_, rfl, by norm_num [grossReward], by norm_num [grossReward],
    by norm_num [grossReward], by norm_num⟩

lemma constructPayoutContents_counter_map (source : String) (networkFee gasLimit : Nat) :
    ∀ (earnings : List DelegationEarning) (counter : Nat),
      (constructPayoutContents source networkFee gasLimit counter earnings).map
          (fun c => c.counter)
        = (List.range earnings.length).map (fun i => counter + 1 + i)
  | [], _ => by simp [constructPayoutContents]
  | e :: rest, counter => by
    have ih := constructPayoutContents_counter_map source networkFee gasLimit
      rest (counter + 1)
    simp only [constructPayoutContents, List.map_cons, List.length_cons, ih,
      List.range_succ_eq_map, List.map_map]
    rw [List.cons_eq_cons]
    refine ⟨by omega, List.map_congr_left fun i _ => ?_⟩
    simp only [Function.comp]
    omega

/-- C4: the Operation Forger assigns counters `c+1, …, c+N` to the `N`
transfer instructions forged from base counter `c`, one per instruction in
payout order, strictly increasing with no gaps and no repeats. -/
theorem C4_counter_assignment (source : String) (networkFee gasLimit counter : Nat)
    (earnings : List DelegationEarning) :
    (constructPayoutContents source networkFee gasLimit counter earnings).map
        (fun c => c.counter)
      = (List.range earnings.length).map (fun i => counter + 1 + i)
    ∧ ((constructPayoutContents source networkFee gasLimit counter earnings).map
        (fun c => c.counter)).Pairwise (· < ·)
    ∧ ((constructPayoutContents source networkFee gasLimit counter earnings).map
        (fun c => c.counter)).Nodup := by
  have hmap := constructPayoutContents_counter_map source networkFee gasLimit
    earnings counter
  have hpair : ((constructPayoutContents source networkFee gasLimit counter
      earnings).map (fun c => c.counter)).Pairwise (· < ·) := by
    rw [hmap, List.pairwise_map]
    exact (List.pairwise_lt_range earnings.length).imp fun h => by omega
  exact ⟨hmap, hpair, hpair.imp Nat.ne_of_lt⟩

/-- C5: forging is deterministic and byte-exact: on the golden test input
(two earnings with net rewards 900,000 and 950,000, base counter 100, network
fee and gas limit 100,000) the forged operation is the golden hex string of
the baker test, with counters 101 and 102 assigned to the two instructions. -/
theorem C5_forge_golden :
    ForgePayout "BLfEWKVudXH15N8nwHZehyLNjRuNLoJavJDjSZ7nq8ggfzbZ18p"
        "tz1SUgyRB8T5jXgXAwS33pgRHAKrafyg87Yc" 100000 100000 100
        [{ delegation := "tz1SUgyRB8T5jXgXAwS33pgRHAKrafyg87Yc", fee := 0,
           grossRewards := 1000000, netRewards := 900000, share := 0 },
         { delegation := "tz1SUgyRB8T5jXgXAwS33pgRHAKrafyg87Yc", fee := 0,
           grossRewards := 1000000, netRewards := 950000, share := 0 }]
      = "7cc601d2729c90b267e6a79d902f8b048d37fd990f2f7447efefb0cfb2f8e8a46c004b04ad1e57c2f13b61b3d2c95b3073d961a4132ba08d0665a08d0600a0f73600004b04ad1e57c2f13b61b3d2c95b3073d961a4132b006c004b04ad1e57c2f13b61b3d2c95b3073d961a4132ba08d0666a08d0600f0fd3900004b04ad1e57c2f13b61b3d2c95b3073d961a4132b00"
    ∧ (constructPayoutContents "tz1SUgyRB8T5jXgXAwS33pgRHAKrafyg87Yc"
        100000 100000 100
        [{ delegation := "tz1SUgyRB8T5jXgXAwS33pgRHAKrafyg87Yc", fee := 0,
           grossRewards := 1000000, netRewards := 900000, share := 0 },
         { delegation := "tz1SUgyRB8T5jXgXAwS33pgRHAKrafyg87Yc", fee := 0,
           grossRewards := 1000000, netRewards := 950000, share := 0 }]).map
        (fun c => c.counter) = [101, 102] := by
  constructor
  · set_option maxRecDepth 10000 in decide
  · decide

/-- C6 counterexample: with ONLY the frozen-balance lookup failing (the other
three cycle-level lookups succeed), the assembly as a whole already fails —
so it is false that assembly fails only when all four lookups fail. -/
theorem C6_single_lookup_failure_counterexample :
    (Payouts ⟨false, true, false, false, false⟩ 100 1 20 "somedelegate").isOk = false
    ∧ (GotezosMock.DelegatedContractsAtCycle ⟨false, true, false, false, false⟩).isOk = true
    ∧ (GotezosMock.CycleBlockHash ⟨false, true, false, false, false⟩).isOk = true
    ∧ (GotezosMock.StakingBalance ⟨false, true, false, false, false⟩).isOk = true := by
  refine ⟨?_, by decide, by decide, by decide⟩
  decide

/-- C6 amended: a failure of any ONE of the four upstream cycle-level lookups
(frozen rewards, delegator list, cycle metadata, staking balance) fails the
whole assembly; a single delegator's balance-lookup failure, by contrast, is
recorded against that delegator's entry only — each entry's success depends
exactly on its own balance lookup. -/
theorem C6_partial_failure_policy :
    (∀ (g : GotezosMock) (c p q : Nat) (d : String),
      g.frozenBalanceErr = true ∨ g.delegatedContractsErr = true
        ∨ g.cycleErr = true ∨ g.stakingBalanceErr = true →
      (Payouts g c p q d).isOk = false)
    ∧ (∀ (balanceOf : String → Except String Nat) (sb rw p q : Nat)
        (ds : List String) (i : Nat), 0 < sb → 0 < q →
        ((proccessDelegations balanceOf sb rw p q ds)[i]?).map Except.isOk
          = (ds[i]?).map (fun d => (balanceOf d).isOk)) := by
  constructor
  · intro g c p q d h
    rcases h with h | h | h | h <;>
      cases hf : g.frozenBalanceErr <;> cases hd : g.delegatedContractsErr <;>
        cases hc : g.cycleErr <;> cases hs : g.stakingBalanceErr <;>
          simp_all [Payouts, GotezosMock.FrozenBalanceRewards,
            GotezosMock.DelegatedContractsAtCycle, GotezosMock.CycleBlockHash,
            GotezosMock.StakingBalance, Except.isOk, Except.toBool]
  · intro balanceOf sb rw p q ds i hsb hq
    simp only [proccessDelegations, List.getElem?_map]
    cases hd : ds[i]? with
    | none => simp
    | some d =>
      simp only [Option.map_some']
      cases hb : balanceOf d with
      | error e => simp [Except.isOk, Except.toBool]
      | ok bal =>
        simp only [processDelegation]
        rw [if_neg (by omega)]
        simp [Except.isOk, Except.toBool]

/-- Witness for C6 at the mock with only the frozen-balance flag set, and at a
balance function that fails for every address on a one-delegator list. -/
theorem C6_partial_failure_policy_witness :
    ((⟨false, true, false, false, false⟩ : GotezosMock).frozenBalanceErr = true
      ∨ (⟨false, true, false, false, false⟩ : GotezosMock).delegatedContractsErr = true
      ∨ (⟨false, true, false, false, false⟩ : GotezosMock).cycleErr = true
      ∨ (⟨false, true, false, false, false⟩ : GotezosMock).stakingBalanceErr = true)
    ∧ (Payouts ⟨false, true, false, false, false⟩ 100 1 20 "somedelegate").isOk = false
    ∧ (0 < (10 : Nat)) ∧ (0 < (20 : Nat))
    ∧ ((proccessDelegations (fun _ => (Except.error "failed to get balance" : Except String Nat))
          10 7 1 20 ["tz1a"])[0]?).map Except.isOk
        = ((["tz1a"] : List String)[0]?).map
            (fun _ => (Except.error "failed to get balance" : Except String Nat).isOk) :=
  ⟨Or.inl rfl,
   C6_partial_failure_policy.1 ⟨false, true, false, false, false⟩ 100 1 20
     "somedelegate" (Or.inl rfl),
   by decide, by decide,
   C6_partial_failure_policy.2
     (fun _ => (Except.error "failed to get balance" : Except String Nat))
     10 7 1 20 ["tz1a"] 0 (by decide) (by decide)⟩

/-- C7 counterexample: with the polling loop of server.start started at
observed cycle 5 and fed head polls reporting cycles 5, 5, 5, 6, 6, 7 (the
wait-for-unfreeze flag off), exactly two payouts are enqueued, but they are
for cycles 5 and 6 — the previously tracked cycle at each trigger — not for
cycles 6 and 7 as claimed. -/
theorem C7_payout_cycles_counterexample :
    serverStart ⟨false, 5⟩ 5 [5, 5, 5, 6, 6, 7] = [5, 6]
    ∧ ([5, 6] : List Int) ≠ [6, 7] := by
  exact ⟨by decide, by decide⟩

lemma serverStart_lower_bound (p : Int) :
    ∀ (polls : List Int) (cur x : Int),
      x ∈ serverStart ⟨false, p⟩ cur polls → cur ≤ x
  | [], cur, x, hx => by simp [serverStart] at hx
  | poll :: polls, cur, x, hx => by
    simp only [serverStart] at hx
    by_cases h : cur < poll
    · rw [if_pos h] at hx
      rcases List.mem_cons.mp hx with rfl | hx'
      · simp [cycleToPayoutFor]
      · exact le_trans h.le (serverStart_lower_bound p polls poll x hx')
    · rw [if_neg h] at hx
      exact serverStart_lower_bound p polls cur x hx

lemma serverStart_pairwise (p : Int) :
    ∀ (polls : List Int) (cur : Int),
      (serverStart ⟨false, p⟩ cur polls).Pairwise (· < ·)
  | [], cur => by simp [serverStart]
  | poll :: polls, cur => by
    simp only [serverStart]
    by_cases h : cur < poll
    · rw [if_pos h]
      refine List.Pairwise.cons ?_ (serverStart_pairwise p polls poll)
      intro x hx
      have hle := serverStart_lower_bound p polls poll x hx
      simp only [cycleToPayoutFor, if_neg Bool.false_ne_true]
      omega
    · rw [if_neg h]
      exact serverStart_pairwise p polls cur

/-- C7 amended: on head polls reporting cycles 5, 5, 5, 6, 6, 7 starting from
observed cycle 5 (wait-for-unfreeze off), exactly two payouts are enqueued, in
order, for cycles 5 and 6 — the cycle tracked before each strictly increasing
head-cycle trigger; the scheduler never enqueues the same cycle twice, the
enqueued cycles being strictly increasing. -/
theorem C7_scheduler_idempotence :
    serverStart ⟨false, 5⟩ 5 [5, 5, 5, 6, 6, 7] = [5, 6]
    ∧ ∀ (p : Int) (polls : List Int) (cur : Int),
        (serverStart ⟨false, p⟩ cur polls).Pairwise (· < ·) :=
  ⟨by decide, fun p polls cur => serverStart_pairwise p polls cur⟩

/-- C8 counterexample: the recognized prefix set of getCurveByPrefix has 15
members (5 per family across 3 families), all distinct and all resolving to a
curve — not 9 as the claim counts. -/
theorem C8_prefix_count_counterexample :
    recognizedPrefixes.length = 15
    ∧ recognizedPrefixes.Nodup
    ∧ recognizedPrefixes.all (fun p => (getCurveByPrefix p).isOk) = true
    ∧ (15 : Nat) ≠ 9 := by
  exact ⟨by decide, by decide, by decide, by decide⟩

/-- C8 amended: every recognized prefix (15 prefixes, 5 per family across
3 families) resolves to its correct curve family, and any prefix outside the
recognized set fails with the unknown-curve error. -/
theorem C8_curve_dispatch (p : String) :
    (p ∈ (["edpk", "edsk", "tz1", "edesk", "edsig"] : List String) →
      getCurveByPrefix p = .ok .ed25519)
    ∧ (p ∈ (["sppk", "spsk", "tz2", "spesk", "spsig"] : List String) →
      getCurveByPrefix p = .ok .secp256k1)
    ∧ (p ∈ (["p2pk", "p2sk", "tz3", "p2esk", "p2sig"] : List String) →
      getCurveByPrefix p = .ok .nistP256)
    ∧ (p ∉ recognizedPrefixes → (getCurveByPrefix p).isOk = false) := by
  refine ⟨?_, ?_, ?_, ?_⟩
  · intro hp
    fin_cases hp <;> rfl
  · intro hp
    fin_cases hp <;> rfl
  · intro hp
    fin_cases hp <;> rfl
  · intro hp
    simp only [recognizedPrefixes, List.mem_cons, List.not_mem_nil, or_false,
      not_or] at hp
    obtain ⟨h1, h2, h3, h4, h5, h6, h7, h8, h9, h10, h11, h12, h13, h14, h15⟩ := hp
    simp [getCurveByPrefix, h1, h2, h3, h4, h5, h6, h7, h8, h9, h10, h11, h12,
      h13, h14, h15, Except.isOk, Except.toBool]

/-- Witness for C8 at the recognized prefix "edpk" and the unrecognized
prefix "tz4". -/
theorem C8_curve_dispatch_witness :
    ("edpk" ∈ (["edpk", "edsk", "tz1", "edesk", "edsig"] : List String)
      ∧ getCurveByPrefix "edpk" = .ok .ed25519)
    ∧ ("tz4" ∉ recognizedPrefixes ∧ (getCurveByPrefix "tz4").isOk = false) :=
  ⟨⟨by decide, (C8_curve_dispatch "edpk").1 (by decide)⟩,
   ⟨by decide, (C8_curve_dispatch "tz4").2.2.2 (by decide)⟩⟩

/-- C9: curve selection by kind is total — Secp256k1 and NistP256 map to
their curves, and every other kind string, recognized or not, silently
falls through to the Ed25519 curve with no error reported. -/
theorem C9_getCurve_total (kind : String) :
    getCurve "Secp256k1" = .secp256k1
    ∧ getCurve "NistP256" = .nistP256
    ∧ (kind ≠ "Secp256k1" → kind ≠ "NistP256" → getCurve kind = .ed25519) := by
  refine ⟨rfl, rfl, fun h1 h2 => ?_⟩
  simp [getCurve, h1, h2]

/-- Witness for C9 at an unrecognized kind string. -/
theorem C9_getCurve_total_witness :
    ("NotACurveKind" ≠ "Secp256k1") ∧ ("NotACurveKind" ≠ "NistP256")
    ∧ getCurve "NotACurveKind" = .ed25519 :=
  ⟨by decide, by decide,
   (C9_getCurve_total "NotACurveKind").2.2 (by decide) (by decide)⟩

/-- C10: the staking-balance and delegated-contracts inputs require exactly
one of block hash or cycle — validation fails when the block hash is empty
and the cycle is 0 (so cycle 0 without a block hash is always rejected), and
also when both a block hash and a nonzero cycle are supplied. -/
theorem C10_exactly_one_of (s : StakingBalanceInput) (t : DelegatedContractsInput) :
    (s.blockhash = "" → s.cycle = 0 → (s.validate).isOk = false)
    ∧ (s.blockhash ≠ "" → s.cycle ≠ 0 → (s.validate).isOk = false)
    ∧ (t.blockhash = "" → t.cycle = 0 → (t.validate).isOk = false)
    ∧ (t.blockhash ≠ "" → t.cycle ≠ 0 → (t.validate).isOk = false) := by
  refine ⟨fun h1 h2 => ?_, fun h1 h2 => ?_, fun h1 h2 => ?_, fun h1 h2 => ?_⟩ <;>
    simp [StakingBalanceInput.validate, DelegatedContractsInput.validate,
      h1, h2, Except.isOk, Except.toBool]

/-- Witness for C10: a staking-balance query for cycle 0 with no block hash is
rejected, and a delegated-contracts query with both a block hash and a nonzero
cycle is rejected. -/
theorem C10_exactly_one_of_witness :
    ((⟨"", "tz1a", 0⟩ : StakingBalanceInput).blockhash = ""
      ∧ (⟨"", "tz1a", 0⟩ : StakingBalanceInput).cycle = 0
      ∧ ((⟨"", "tz1a", 0⟩ : StakingBalanceInput).validate).isOk = false)
    ∧ ((⟨"BL1", "tz1a", 7⟩ : DelegatedContractsInput).blockhash ≠ ""
      ∧ (⟨"BL1", "tz1a", 7⟩ : DelegatedContractsInput).cycle ≠ 0
      ∧ ((⟨"BL1", "tz1a", 7⟩ : DelegatedContractsInput).validate).isOk = false) :=
  ⟨⟨rfl, rfl, (C10_exactly_one_of ⟨"", "tz1a", 0⟩ ⟨"BL1", "tz1a", 7⟩).1 rfl rfl⟩,
   ⟨by decide, by decide,
    (C10_exactly_one_of ⟨"", "tz1a", 0⟩ ⟨"BL1", "tz1a", 7⟩).2.2.2
      (by decide) (by decide)⟩⟩

end Payman
